import Mathlib

/-!
Verification development for `src/bench.h` of the MicroBench repository: a
single-header benchmarking utility (bounded store of labelled microsecond
durations, SI-prefix scaling, three report renderers).

Modelling conventions:
* Machine integers (`long long`, `size_t`) are modelled as `ℤ` / `Nat`;
  the quantities involved stay far from any overflow boundary.
* The process-wide singleton `static benchmark_t benchmarks` is modelled by
  explicit state passing of a `benchmark_t` value.
* C strings (byte arrays) are modelled as `List Char`; the null terminator is
  implicit (a stored label is exactly the list of characters before it).
* The array `timings[MAX_FUNS_TO_BENCH]` together with `timing_index` is
  modelled as the list of its first `timing_index` cells: slots at or beyond
  `timing_index` are never read by any function of the header.
* Floating-point `double` arithmetic on in-range, far-from-boundary values is
  modelled exactly over `ℚ` (or `ℝ` where `log2` is involved).  A `double`
  division with zero divisor produces no finite value (IEEE NaN/inf); the
  models mark that situation explicitly (`Option`) instead of producing a
  number.
* `qsort` is an external libc routine: the C standard fixes only its
  postcondition (the result is a permutation of the input, ordered per the
  comparator; the relative order of elements comparing equal is unspecified).
  `qsort_post` states that contract; `benchSort` (insertion sort) is one
  deterministic refinement of it used where a concrete result is needed.
-/

/-- Maximum number of benchmarked functions (`MAX_FUNS_TO_BENCH`, bench.h:46). -/
def MAX_FUNS_TO_BENCH : Nat := 600

/-- Maximum characters in a function label (`MAX_FUNS_NAME_LENGTH`, bench.h:47). -/
def MAX_FUNS_NAME_LENGTH : Nat := 100

/-- Width of progress bars in ranking output (`BAR_LENGTH`, bench.h:48). -/
def BAR_LENGTH : ℤ := 20

/-- Benchmark info for a single function (`time_info`, bench.h:118-121). -/
structure time_info where
  time_us : ℤ
  function_name : List Char
deriving DecidableEq

/-- Timing data for all benchmarked functions (`benchmark_t`, bench.h:126-131).
`timings` holds the first `timing_index` array cells, so `timing_index` is its
length. -/
structure benchmark_t where
  total_time : ℤ
  start_time : ℤ
  timings : List time_info
deriving DecidableEq

/-- Number of functions tracked (`timing_index` field of `benchmark_t`). -/
def benchmark_t.timing_index (b : benchmark_t) : Nat := b.timings.length

/-- Global-state reset (`benchmark_init`, bench.h:290-294): zeroes
`total_time`, `timing_index` and `start_time`. -/
def benchmark_init : benchmark_t :=
  { total_time := 0, start_time := 0, timings := [] }

/-- Start timing (`START_TIMING()`, bench.h:210): stores the clock reading
`now` into `start_time`.  The clock value is an input of the model. -/
def START_TIMING (now : ℤ) (b : benchmark_t) : benchmark_t :=
  { b with start_time := now }

/-- Diagnostic printed by `record_timing` on overflow (bench.h:304). -/
def capacity_error_msg : String :=
  "Error: Exceeded maximum number of benchmarked functions!"

/-- Record a stop event (`record_timing`, bench.h:302-320).  `end_time` is the
clock reading `get_time_us()` returns at bench.h:308.  Returns the new state
and the lines written to `stderr`.  The `strncpy` of bench.h:312-317 copies at
most `MAX_FUNS_NAME_LENGTH - 1` characters and then forces a terminator, so
the stored label is `function_name` truncated to `MAX_FUNS_NAME_LENGTH - 1`
characters. -/
def record_timing (end_time : ℤ) (function_name : List Char) (b : benchmark_t) :
    benchmark_t × List String :=
  if MAX_FUNS_TO_BENCH ≤ b.timings.length then
    (b, [capacity_error_msg])
  else
    let t : ℤ := end_time - b.start_time
    ({ b with
        total_time := b.total_time + t,
        timings := b.timings ++
          [{ time_us := t,
             function_name := function_name.take (MAX_FUNS_NAME_LENGTH - 1) }] },
     [])

/-- Descending comparison used by the ranked sort (`compare_times`,
bench.h:364-371): `a` precedes `b` when `b.time_us ≤ a.time_us`. -/
def time_ge (a b : time_info) : Prop := b.time_us ≤ a.time_us

instance : DecidableRel time_ge :=
  fun a b => inferInstanceAs (Decidable (b.time_us ≤ a.time_us))

instance : IsTotal time_info time_ge :=
  ⟨fun a b => le_total b.time_us a.time_us⟩

instance : IsTrans time_info time_ge :=
  ⟨fun _ _ _ hab hbc => le_trans hbc hab⟩

/-- Postcondition of `qsort(timings, timing_index, sizeof(time_info),
compare_times)` at bench.h:390, as guaranteed by the C standard: the array is
permuted into an order consistent with the comparator.  The relative order of
entries with equal `time_us` is unspecified. -/
def qsort_post (l l' : List time_info) : Prop :=
  l'.Perm l ∧ l'.Sorted time_ge

/-- Deterministic refinement of `qsort_post` used where a concrete sorted
result is needed: insertion sort under the `compare_times` order. -/
def benchSort (l : List time_info) : List time_info :=
  l.insertionSort time_ge

/-- Sum of the recorded durations over a list of entries. -/
def sum_times (l : List time_info) : ℤ :=
  (l.map time_info.time_us).sum

/-- One client-visible operation on the global benchmark state. -/
inductive bench_op
  | start (now : ℤ)
  | record (end_time : ℤ) (function_name : List Char)
  | ranked_sort
deriving DecidableEq

/-- Effect of one operation on the store.  `ranked_sort` is the in-place
reorder performed by `print_bench_ranked` (bench.h:385-390): it returns
untouched on an empty store and otherwise sorts `timings` in place. -/
def bench_step (b : benchmark_t) : bench_op → benchmark_t
  | .start now => START_TIMING now b
  | .record e n => (record_timing e n b).1
  | .ranked_sort =>
      if b.timings.length = 0 then b else { b with timings := benchSort b.timings }

/-- Run a sequence of operations from the freshly initialized store. -/
def bench_run (ops : List bench_op) : benchmark_t :=
  ops.foldl bench_step benchmark_init

/-- Number of `record` operations in a trace. -/
def num_records : List bench_op → Nat
  | [] => 0
  | .record _ _ :: ops => num_records ops + 1
  | _ :: ops => num_records ops

/-- SI unit prefix scale (`scale`, bench.h:73-76).  The divisor is exact
(`ℚ`): every table entry is a power of ten, representable exactly as a
`double`, so the `ℚ` model coincides with the C values. -/
structure scale where
  suffix : String
  scale_divisor : ℚ
deriving DecidableEq

/-- Table entry `scales[scale_nano_idx]` (bench.h:103). -/
def scale_nano : scale := { suffix := "n", scale_divisor := 1 / 1000000000 }

/-- Table entry `scales[scale_micro_idx]` (bench.h:104). -/
def scale_micro : scale := { suffix := "µ", scale_divisor := 1 / 1000000 }

/-- Table entry `scales[scale_milli_idx]` (bench.h:105). -/
def scale_milli : scale := { suffix := "m", scale_divisor := 1 / 1000 }

/-- Table entry `scales[scale_unit_idx]` (bench.h:106). -/
def scale_unit : scale := { suffix := "", scale_divisor := 1 }

/-- Table entry `scales[scale_kilo_idx]` (bench.h:107). -/
def scale_kilo : scale := { suffix := "k", scale_divisor := 1000 }

/-- Table entry `scales[scale_mega_idx]` (bench.h:108). -/
def scale_mega : scale := { suffix := "M", scale_divisor := 1000000 }

/-- Table entry `scales[scale_giga_idx]` (bench.h:109). -/
def scale_giga : scale := { suffix := "G", scale_divisor := 1000000000 }

/-- Table entry `scales[scale_tera_idx]` (bench.h:110). -/
def scale_tera : scale := { suffix := "T", scale_divisor := 1000000000000 }

/-- The SI scaling table `scales` (bench.h:102-111), in index order nano
through tera. -/
def scales : List scale :=
  [scale_nano, scale_micro, scale_milli, scale_unit,
   scale_kilo, scale_mega, scale_giga, scale_tera]

/-- Scale selection (`get_scale`, bench.h:322-333).  The C loop runs the
index `i` from `scale_count - 1` (tera) down to `0` (nano) and returns the
first entry with `fabs(v / scales[i].scale_divisor) >= 1.0`; the chain of
conditionals below unrolls that loop in the same order, with the same
zero guard before it and the same nano fallback after it. -/
def get_scale (v : ℚ) : scale :=
  if v = 0 then scale_nano
  else if 1 ≤ |v / scale_tera.scale_divisor| then scale_tera
  else if 1 ≤ |v / scale_giga.scale_divisor| then scale_giga
  else if 1 ≤ |v / scale_mega.scale_divisor| then scale_mega
  else if 1 ≤ |v / scale_kilo.scale_divisor| then scale_kilo
  else if 1 ≤ |v / scale_unit.scale_divisor| then scale_unit
  else if 1 ≤ |v / scale_milli.scale_divisor| then scale_milli
  else if 1 ≤ |v / scale_micro.scale_divisor| then scale_micro
  else if 1 ≤ |v / scale_nano.scale_divisor| then scale_nano
  else scale_nano

/-- C cast `(int)` applied to a nonnegative-or-negative real value:
truncation toward zero. -/
def cTrunc (q : ℚ) : ℤ := if q < 0 then -⌊-q⌋ else ⌊q⌋

/-- Rendering of `%.2f` for a finite value: two digits after the decimal
point.  Defined for the nonnegative, exactly-representable values the claims
exercise (no rounding tie arises there). -/
def fmt2 (q : ℚ) : String :=
  let n : ℤ := ⌊q * 100 + 1 / 2⌋
  toString (n / 100) ++ "." ++
    (if n % 100 < 10 then "0" ++ toString (n % 100) else toString (n % 100))

/-- Opening sentinel printed by `print_bench_json` (bench.h:424). -/
def json_open : String := ">>>\x7b"

/-- Closing sentinel printed by `print_bench_json` (bench.h:433). -/
def json_close : String := "\x7d<<<"

/-- One body line of `print_bench_json` (bench.h:427-431): two-space indent,
the quoted label, then `\x7b"time_μs": N, "percentage": P.PP\x7d` — the key is
spelled `time_μs` with a Greek mu in the format string at bench.h:427 — and a
trailing comma on every line but the last.  The percentage operand is the
`double` division `(double)time_us * 100.0 / total_time`; this renderer is
only used when `total ≠ 0` (see `print_bench_json_out`). -/
def json_line (e : time_info) (total : ℤ) (comma : Bool) : String :=
  "  \"" ++ String.mk e.function_name ++ "\": \x7b\"time_μs\": " ++
    toString e.time_us ++ ", \"percentage\": " ++
    fmt2 ((e.time_us : ℚ) * 100 / (total : ℚ)) ++ "\x7d" ++
    (if comma then "," else "")

/-- Body lines of `print_bench_json`: the loop at bench.h:425-432 puts a
comma on entry `i` exactly when `i < timing_index - 1`. -/
def json_lines : List time_info → ℤ → List String
  | [], _ => []
  | [e], total => [json_line e total false]
  | e :: e' :: rest, total => json_line e total true :: json_lines (e' :: rest) total

/-- Output of `print_bench_json` (bench.h:423-434) as a list of lines.
`none` marks the one situation in which the function performs a
floating-point division with zero divisor (entries present while
`total_time = 0`, bench.h:426): the percentages printed there are IEEE
NaN/inf, not finite numbers, and are not modelled further.  In every other
case the output is the opening sentinel, one body line per entry in storage
order, and the closing sentinel. -/
def print_bench_json_out (b : benchmark_t) : Option (List String) :=
  if 0 < b.timings.length ∧ b.total_time = 0 then none
  else some (json_open :: json_lines b.timings b.total_time ++ [json_close])

/-- Claim-relevant content of one data row of `print_bench_ranked`
(bench.h:398-417): the label, the exact percentage
`(double)time_us * 100.0 / total_time`, and the number of filled bar glyphs
`(int)(BAR_LENGTH * percentage / 100.0)`; the row is rendered as a table line
followed by a bar line of `filled_length` filled glyphs and
`BAR_LENGTH - filled_length` spaces.  The SI-scaled time string and the ANSI
color are presentation details no claim touches. -/
structure ranked_row where
  function_name : List Char
  percentage : ℚ
  filled_length : ℤ
deriving DecidableEq

/-- Row computed for one entry by the loop body of `print_bench_ranked`. -/
def ranked_row_of (total : ℤ) (e : time_info) : ranked_row :=
  { function_name := e.function_name,
    percentage := (e.time_us : ℚ) * 100 / (total : ℚ),
    filled_length :=
      cTrunc ((BAR_LENGTH : ℚ) * ((e.time_us : ℚ) * 100 / (total : ℚ)) / 100) }

/-- Rows printed for a given entry order and total. -/
def ranked_rows (l : List time_info) (total : ℤ) : List ranked_row :=
  l.map (ranked_row_of total)

/-- Output of `print_bench_ranked` (bench.h:384-421): `none` models the
early return printing "No benchmark data available." on an empty store;
otherwise the rows follow the sorted order. -/
def print_bench_ranked_out (b : benchmark_t) : Option (List ranked_row) :=
  if b.timings.length = 0 then none
  else some (ranked_rows (benchSort b.timings) b.total_time)

/-- Throughput value computed by `FFT_bench` (bench.h:348):
`(5.0 * fft_points * log2(fft_points)) / (mu_s * scales[scale_micro_idx].scale_divisor)`,
over `ℝ` because of `log2`. -/
noncomputable def FFT_mflops (mu_s : ℝ) (FFT_size : ℕ) : ℝ :=
  5 * (FFT_size : ℝ) * Real.logb 2 (FFT_size : ℝ) / (mu_s * (1 / 1000000))

/-- Observable behaviour of `FFT_bench` (bench.h:341-362): `none` is the
early return producing no output when `mu_s ≤ 0` (bench.h:342-343); otherwise
the pair of magnitudes printed — the elapsed time rescaled to seconds
(`mu_s * 1e-6`, bench.h:353) and the throughput `FFT_mflops` (bench.h:354,
359-360). -/
noncomputable def FFT_bench (mu_s : ℝ) (FFT_size : ℕ) : Option (ℝ × ℝ) :=
  if mu_s ≤ 0 then none
  else some (mu_s * (1 / 1000000), FFT_mflops mu_s FFT_size)

/-- Unfolding of `record_timing` on a non-full store. -/
theorem record_timing_succ (e : ℤ) (n : List Char) (b : benchmark_t)
    (h : b.timings.length < MAX_FUNS_TO_BENCH) :
    record_timing e n b =
      ({ total_time := b.total_time + (e - b.start_time),
         start_time := b.start_time,
         timings := b.timings ++
           [{ time_us := e - b.start_time,
              function_name := n.take (MAX_FUNS_NAME_LENGTH - 1) }] }, []) := by
  simp only [record_timing, if_neg (not_le.mpr h)]

/-- Sum of durations distributes over append. -/
theorem sum_times_append (l1 l2 : List time_info) :
    sum_times (l1 ++ l2) = sum_times l1 + sum_times l2 := by
  simp [sum_times]

/-- The ranked sort preserves the sum of durations. -/
theorem sum_times_benchSort (l : List time_info) :
    sum_times (benchSort l) = sum_times l :=
  ((List.perm_insertionSort time_ge l).map time_info.time_us).sum_eq

theorem num_records_nil : num_records [] = 0 := rfl

theorem num_records_start (now : ℤ) (ops : List bench_op) :
    num_records (bench_op.start now :: ops) = num_records ops := rfl

theorem num_records_record (e : ℤ) (n : List Char) (ops : List bench_op) :
    num_records (bench_op.record e n :: ops) = num_records ops + 1 := rfl

theorem num_records_ranked (ops : List bench_op) :
    num_records (bench_op.ranked_sort :: ops) = num_records ops := rfl

/-- Main invariant of the store: along any trace whose pending `record`
operations fit in the remaining capacity, `total_time` stays the sum of the
stored durations and the entry count grows by exactly the number of
recordings. -/
theorem bench_steps_inv (ops : List bench_op) (b : benchmark_t)
    (hsum : b.total_time = sum_times b.timings)
    (hlen : b.timings.length + num_records ops ≤ MAX_FUNS_TO_BENCH) :
    (ops.foldl bench_step b).total_time = sum_times (ops.foldl bench_step b).timings ∧
    (ops.foldl bench_step b).timings.length = b.timings.length + num_records ops := by
  induction ops generalizing b with
  | nil => exact ⟨hsum, by simp [num_records_nil]⟩
  | cons op ops ih =>
    cases op with
    | start now =>
      have h := ih (START_TIMING now b) (by simpa [START_TIMING] using hsum)
        (by simpa [START_TIMING, num_records_start] using hlen)
      simpa [List.foldl_cons, bench_step, START_TIMING, num_records_start] using h
    | record e n =>
      rw [num_records_record] at hlen
      have hcap : b.timings.length < MAX_FUNS_TO_BENCH := by omega
      simp only [List.foldl_cons, bench_step, record_timing_succ e n b hcap]
      have hsum' : (b.total_time + (e - b.start_time)) =
          sum_times (b.timings ++
            [{ time_us := e - b.start_time,
               function_name := n.take (MAX_FUNS_NAME_LENGTH - 1) }]) := by
        rw [sum_times_append, hsum]; simp [sum_times]
      obtain ⟨h1, h2⟩ := ih
        { total_time := b.total_time + (e - b.start_time),
          start_time := b.start_time,
          timings := b.timings ++
            [{ time_us := e - b.start_time,
               function_name := n.take (MAX_FUNS_NAME_LENGTH - 1) }] }
        hsum' (by simp only [List.length_append, List.length_singleton]; omega)
      refine ⟨h1, ?_⟩
      rw [h2, num_records_record]
      simp; omega
    | ranked_sort =>
      rw [num_records_ranked] at hlen
      simp only [List.foldl_cons, bench_step]
      by_cases hz : b.timings.length = 0
      · rw [if_pos hz]
        exact (ih b hsum hlen).imp id (by rw [num_records_ranked]; exact id)
      · rw [if_neg hz]
        have hsum' : b.total_time = sum_times (benchSort b.timings) := by
          rw [sum_times_benchSort]; exact hsum
        have hlen' : (benchSort b.timings).length + num_records ops ≤ MAX_FUNS_TO_BENCH := by
          simpa [benchSort, List.length_insertionSort] using hlen
        obtain ⟨h1, h2⟩ := ih { b with timings := benchSort b.timings } hsum' hlen'
        refine ⟨h1, ?_⟩
        rw [num_records_ranked, h2]
        simp [benchSort, List.length_insertionSort]

/-- C4: for every operation sequence starting from `benchmark_init` in which
`N ≤ MAX_FUNS_TO_BENCH` recordings occur, every recording succeeds, the store
ends with `timing_index = N`, and `total_time` equals the sum of `time_us`
over the stored entries; the invariant is maintained by every operation,
including the in-place sort performed by `print_bench_ranked`. -/
theorem C4_count_and_total (ops : List bench_op)
    (h : num_records ops ≤ MAX_FUNS_TO_BENCH) :
    (bench_run ops).timing_index = num_records ops ∧
    (bench_run ops).total_time = sum_times (bench_run ops).timings := by
  have key := bench_steps_inv ops benchmark_init
    (by simp [benchmark_init, sum_times]) (by simpa [benchmark_init] using h)
  exact ⟨by simpa [bench_run, benchmark_t.timing_index, benchmark_init] using key.2,
         by simpa [bench_run] using key.1⟩

/-- Witness for C4 at a concrete four-operation trace. -/
theorem C4_count_and_total_witness :
    num_records [bench_op.start 2, bench_op.record 5 ['a'], bench_op.record 9 ['b'],
      bench_op.ranked_sort] ≤ MAX_FUNS_TO_BENCH ∧
    ((bench_run [bench_op.start 2, bench_op.record 5 ['a'], bench_op.record 9 ['b'],
        bench_op.ranked_sort]).timing_index =
      num_records [bench_op.start 2, bench_op.record 5 ['a'], bench_op.record 9 ['b'],
        bench_op.ranked_sort] ∧
     (bench_run [bench_op.start 2, bench_op.record 5 ['a'], bench_op.record 9 ['b'],
        bench_op.ranked_sort]).total_time =
      sum_times (bench_run [bench_op.start 2, bench_op.record 5 ['a'], bench_op.record 9 ['b'],
        bench_op.ranked_sort]).timings) :=
  ⟨by decide, C4_count_and_total _ (by decide)⟩

/-- C5: on a store already holding `MAX_FUNS_TO_BENCH` entries,
`record_timing` returns with the state completely unchanged (entry list,
`total_time` and `start_time` alike) and one diagnostic line on the error
stream; it does not abort — the model is a total function returning the
untouched state. -/
theorem C5_capacity_reject (e : ℤ) (n : List Char) (b : benchmark_t)
    (h : b.timing_index = MAX_FUNS_TO_BENCH) :
    record_timing e n b = (b, [capacity_error_msg]) := by
  simp only [record_timing,
    if_pos (le_of_eq h.symm : MAX_FUNS_TO_BENCH ≤ b.timings.length)]

/-- Witness for C5 on a store filled with 600 entries. -/
theorem C5_capacity_reject_witness :
    (benchmark_t.mk 0 0 (List.replicate 600 { time_us := 0, function_name := [] })).timing_index =
      MAX_FUNS_TO_BENCH ∧
    record_timing 7 ['x']
        (benchmark_t.mk 0 0 (List.replicate 600 { time_us := 0, function_name := [] })) =
      (benchmark_t.mk 0 0 (List.replicate 600 { time_us := 0, function_name := [] }),
       [capacity_error_msg]) :=
  ⟨by unfold benchmark_t.timing_index; rw [List.length_replicate]; rfl,
   C5_capacity_reject 7 ['x'] _
     (by unfold benchmark_t.timing_index; rw [List.length_replicate]; rfl)⟩

/-- C9: on any successful recording the stored label is the caller's label
truncated to its first `MAX_FUNS_NAME_LENGTH - 1` characters, so it always
fits in the `MAX_FUNS_NAME_LENGTH`-byte buffer with room for the terminator;
in the list model no byte outside the label field exists to be written. -/
theorem C9_label_truncation (e : ℤ) (n : List Char) (b : benchmark_t)
    (h : b.timing_index < MAX_FUNS_TO_BENCH) :
    (record_timing e n b).1.timings.getLast? =
      some { time_us := e - b.start_time,
             function_name := n.take (MAX_FUNS_NAME_LENGTH - 1) } ∧
    (n.take (MAX_FUNS_NAME_LENGTH - 1)).length ≤ MAX_FUNS_NAME_LENGTH - 1 ∧
    (MAX_FUNS_NAME_LENGTH ≤ n.length →
      (n.take (MAX_FUNS_NAME_LENGTH - 1)).length = MAX_FUNS_NAME_LENGTH - 1) := by
  refine ⟨?_, ?_, ?_⟩
  · rw [record_timing_succ e n b h]
    exact List.getLast?_concat _
  · simp [List.length_take]
  · intro hlong
    simp only [List.length_take]
    omega

/-- Witness for C9: a 150-character label is stored as its first 99
characters. -/
theorem C9_label_truncation_witness :
    (benchmark_t.mk 0 0 []).timing_index < MAX_FUNS_TO_BENCH ∧
    ((record_timing 4 (List.replicate 150 'z') (benchmark_t.mk 0 0 [])).1.timings.getLast? =
      some { time_us := (4 : ℤ) - 0,
             function_name := (List.replicate 150 'z').take (MAX_FUNS_NAME_LENGTH - 1) } ∧
     ((List.replicate 150 'z').take (MAX_FUNS_NAME_LENGTH - 1)).length ≤
        MAX_FUNS_NAME_LENGTH - 1 ∧
     (MAX_FUNS_NAME_LENGTH ≤ (List.replicate 150 'z').length →
       ((List.replicate 150 'z').take (MAX_FUNS_NAME_LENGTH - 1)).length =
         MAX_FUNS_NAME_LENGTH - 1)) :=
  ⟨by decide,
   C9_label_truncation 4 (List.replicate 150 'z') _ (by decide)⟩

/-- C10: `record_timing` leaves `start_time` untouched on every path (frame
property), so a second `END_TIMING` with no intervening `START_TIMING`
measures from the same original start instant, and a stop with no prior start
after `benchmark_init` measures from the zero instant. -/
theorem C10_start_time_frame (b : benchmark_t) (e1 e2 : ℤ) (n1 n2 : List Char)
    (h : b.timing_index + 1 < MAX_FUNS_TO_BENCH) :
    (∀ (b' : benchmark_t) (e : ℤ) (n : List Char),
      (record_timing e n b').1.start_time = b'.start_time) ∧
    (record_timing e2 n2 (record_timing e1 n1 b).1).1.timings.getLast? =
      some { time_us := e2 - b.start_time,
             function_name := n2.take (MAX_FUNS_NAME_LENGTH - 1) } ∧
    (record_timing e1 n1 benchmark_init).1.timings.getLast? =
      some { time_us := e1 - 0,
             function_name := n1.take (MAX_FUNS_NAME_LENGTH - 1) } := by
  have frame : ∀ (b' : benchmark_t) (e : ℤ) (n : List Char),
      (record_timing e n b').1.start_time = b'.start_time := by
    intro b' e n
    by_cases hc : MAX_FUNS_TO_BENCH ≤ b'.timings.length
    · simp [record_timing, if_pos hc]
    · rw [record_timing_succ e n b' (not_le.mp hc)]
  have hlen : b.timings.length + 1 < MAX_FUNS_TO_BENCH := by
    have h' := h
    unfold benchmark_t.timing_index at h'
    omega
  have hb1 : b.timings.length < MAX_FUNS_TO_BENCH := by omega
  have e1eq := record_timing_succ e1 n1 b hb1
  have hb2 : (record_timing e1 n1 b).1.timings.length < MAX_FUNS_TO_BENCH := by
    rw [e1eq]
    simpa using hlen
  have e2eq := record_timing_succ e2 n2 (record_timing e1 n1 b).1 hb2
  refine ⟨frame, ?_, ?_⟩
  · rw [e2eq]
    simp only [List.getLast?_concat]
    rw [frame b e1 n1]
  · rw [record_timing_succ e1 n1 benchmark_init (by decide)]
    simp [benchmark_init, List.getLast?_concat]

/-- Witness for C10 on a one-entry store. -/
theorem C10_start_time_frame_witness :
    (benchmark_t.mk 0 11 []).timing_index + 1 < MAX_FUNS_TO_BENCH ∧
    ((∀ (b' : benchmark_t) (e : ℤ) (n : List Char),
       (record_timing e n b').1.start_time = b'.start_time) ∧
     (record_timing 25 ['q'] (record_timing 14 ['p'] (benchmark_t.mk 0 11 [])).1).1.timings.getLast? =
       some { time_us := (25 : ℤ) - 11, function_name := ['q'].take (MAX_FUNS_NAME_LENGTH - 1) } ∧
     (record_timing 14 ['p'] benchmark_init).1.timings.getLast? =
       some { time_us := (14 : ℤ) - 0, function_name := ['p'].take (MAX_FUNS_NAME_LENGTH - 1) }) :=
  ⟨by decide,
   C10_start_time_frame (benchmark_t.mk 0 11 []) 14 25 ['p'] ['q'] (by decide)⟩

/-- Helper: for a positive divisor `d`, the loop condition
`fabs(v / d) >= 1.0` says exactly that `d ≤ |v|`. -/
theorem one_le_abs_div (v d : ℚ) (hd : 0 < d) : (1 ≤ |v / d|) ↔ d ≤ |v| := by
  rw [abs_div, abs_of_pos hd, le_div_iff₀ hd, one_mul]

set_option maxHeartbeats 1000000 in
/-- C6: for nonzero `v`, `get_scale` returns the table entry with the largest
divisor `d` satisfying `|v / d| ≥ 1` when one exists (first hit scanning from
tera downward), and the nano entry when none does; `get_scale 0` is nano, and
the three spec examples evaluate as claimed (`0.000000123` ↦ nano, `1500` ↦
kilo, `1.5e12` ↦ tera). -/
theorem C6_get_scale (v : ℚ) (hv : v ≠ 0) :
    ((∃ s ∈ scales, 1 ≤ |v / s.scale_divisor|) →
      get_scale v ∈ scales ∧ 1 ≤ |v / (get_scale v).scale_divisor| ∧
      ∀ s ∈ scales, 1 ≤ |v / s.scale_divisor| →
        s.scale_divisor ≤ (get_scale v).scale_divisor) ∧
    ((∀ s ∈ scales, ¬ 1 ≤ |v / s.scale_divisor|) → get_scale v = scale_nano) ∧
    get_scale 0 = scale_nano ∧
    get_scale (123 / 1000000000) = scale_nano ∧
    get_scale 1500 = scale_kilo ∧
    get_scale 1500000000000 = scale_tera := by
  refine ⟨?_, ?_, ?_, ?_, ?_, ?_⟩
  · simp only [get_scale, if_neg hv]
    split_ifs with h1 h2 h3 h4 h5 h6 h7 h8
    · intro _
      refine ⟨by simp [scales], h1, ?_⟩
      intro s hs hcond
      simp only [scales, List.mem_cons, List.not_mem_nil, or_false] at hs
      rcases hs with rfl | rfl | rfl | rfl | rfl | rfl | rfl | rfl <;>
        norm_num [scale_nano, scale_micro, scale_milli, scale_unit,
          scale_kilo, scale_mega, scale_giga, scale_tera]
    · intro _
      refine ⟨by simp [scales], h2, ?_⟩
      intro s hs hcond
      simp only [scales, List.mem_cons, List.not_mem_nil, or_false] at hs
      rcases hs with rfl | rfl | rfl | rfl | rfl | rfl | rfl | rfl
      · norm_num [scale_nano, scale_giga]
      · norm_num [scale_micro, scale_giga]
      · norm_num [scale_milli, scale_giga]
      · norm_num [scale_unit, scale_giga]
      · norm_num [scale_kilo, scale_giga]
      · norm_num [scale_mega, scale_giga]
      · norm_num [scale_giga]
      · exact absurd hcond h1
    · intro _
      refine ⟨by simp [scales], h3, ?_⟩
      intro s hs hcond
      simp only [scales, List.mem_cons, List.not_mem_nil, or_false] at hs
      rcases hs with rfl | rfl | rfl | rfl | rfl | rfl | rfl | rfl
      · norm_num [scale_nano, scale_mega]
      · norm_num [scale_micro, scale_mega]
      · norm_num [scale_milli, scale_mega]
      · norm_num [scale_unit, scale_mega]
      · norm_num [scale_kilo, scale_mega]
      · norm_num [scale_mega]
      · exact absurd hcond h2
      · exact absurd hcond h1
    · intro _
      refine ⟨by simp [scales], h4, ?_⟩
      intro s hs hcond
      simp only [scales, List.mem_cons, List.not_mem_nil, or_false] at hs
      rcases hs with rfl | rfl | rfl | rfl | rfl | rfl | rfl | rfl
      · norm_num [scale_nano, scale_kilo]
      · norm_num [scale_micro, scale_kilo]
      · norm_num [scale_milli, scale_kilo]
      · norm_num [scale_unit, scale_kilo]
      · norm_num [scale_kilo]
      · exact absurd hcond h3
      · exact absurd hcond h2
      · exact absurd hcond h1
    · intro _
      refine ⟨by simp [scales], h5, ?_⟩
      intro s hs hcond
      simp only [scales, List.mem_cons, List.not_mem_nil, or_false] at hs
      rcases hs with rfl | rfl | rfl | rfl | rfl | rfl | rfl | rfl
      · norm_num [scale_nano, scale_unit]
      · norm_num [scale_micro, scale_unit]
      · norm_num [scale_milli, scale_unit]
      · norm_num [scale_unit]
      · exact absurd hcond h4
      · exact absurd hcond h3
      · exact absurd hcond h2
      · exact absurd hcond h1
    · intro _
      refine ⟨by simp [scales], h6, ?_⟩
      intro s hs hcond
      simp only [scales, List.mem_cons, List.not_mem_nil, or_false] at hs
      rcases hs with rfl | rfl | rfl | rfl | rfl | rfl | rfl | rfl
      · norm_num [scale_nano, scale_milli]
      · norm_num [scale_micro, scale_milli]
      · norm_num [scale_milli]
      · exact absurd hcond h5
      · exact absurd hcond h4
      · exact absurd hcond h3
      · exact absurd hcond h2
      · exact absurd hcond h1
    · intro _
      refine ⟨by simp [scales], h7, ?_⟩
      intro s hs hcond
      simp only [scales, List.mem_cons, List.not_mem_nil, or_false] at hs
      rcases hs with rfl | rfl | rfl | rfl | rfl | rfl | rfl | rfl
      · norm_num [scale_nano, scale_micro]
      · norm_num [scale_micro]
      · exact absurd hcond h6
      · exact absurd hcond h5
      · exact absurd hcond h4
      · exact absurd hcond h3
      · exact absurd hcond h2
      · exact absurd hcond h1
    · intro _
      refine ⟨by simp [scales], h8, ?_⟩
      intro s hs hcond
      simp only [scales, List.mem_cons, List.not_mem_nil, or_false] at hs
      rcases hs with rfl | rfl | rfl | rfl | rfl | rfl | rfl | rfl
      · norm_num [scale_nano]
      · exact absurd hcond h7
      · exact absurd hcond h6
      · exact absurd hcond h5
      · exact absurd hcond h4
      · exact absurd hcond h3
      · exact absurd hcond h2
      · exact absurd hcond h1
    · intro hex
      obtain ⟨s, hs, hcond⟩ := hex
      simp only [scales, List.mem_cons, List.not_mem_nil, or_false] at hs
      rcases hs with rfl | rfl | rfl | rfl | rfl | rfl | rfl | rfl
      · exact absurd hcond h8
      · exact absurd hcond h7
      · exact absurd hcond h6
      · exact absurd hcond h5
      · exact absurd hcond h4
      · exact absurd hcond h3
      · exact absurd hcond h2
      · exact absurd hcond h1
  · simp only [get_scale, if_neg hv]
    split_ifs with h1 h2 h3 h4 h5 h6 h7 h8
    · intro hall
      exact absurd h1 (hall scale_tera (by simp [scales]))
    · intro hall
      exact absurd h2 (hall scale_giga (by simp [scales]))
    · intro hall
      exact absurd h3 (hall scale_mega (by simp [scales]))
    · intro hall
      exact absurd h4 (hall scale_kilo (by simp [scales]))
    · intro hall
      exact absurd h5 (hall scale_unit (by simp [scales]))
    · intro hall
      exact absurd h6 (hall scale_milli (by simp [scales]))
    · intro hall
      exact absurd h7 (hall scale_micro (by simp [scales]))
    · intro _
      rfl
    · intro _
      rfl
  · norm_num [get_scale]
  · norm_num [get_scale, scale_nano, scale_micro, scale_milli, scale_unit,
      scale_kilo, scale_mega, scale_giga, scale_tera, one_le_abs_div, abs_of_pos]
  · norm_num [get_scale, scale_nano, scale_micro, scale_milli, scale_unit,
      scale_kilo, scale_mega, scale_giga, scale_tera, one_le_abs_div, abs_of_pos]
  · norm_num [get_scale, scale_nano, scale_micro, scale_milli, scale_unit,
      scale_kilo, scale_mega, scale_giga, scale_tera, one_le_abs_div, abs_of_pos]

/-- Witness for C6 at `v = 1500`. -/
theorem C6_get_scale_witness :
    (1500 : ℚ) ≠ 0 ∧
    (((∃ s ∈ scales, 1 ≤ |(1500 : ℚ) / s.scale_divisor|) →
       get_scale 1500 ∈ scales ∧ 1 ≤ |(1500 : ℚ) / (get_scale 1500).scale_divisor| ∧
       ∀ s ∈ scales, 1 ≤ |(1500 : ℚ) / s.scale_divisor| →
         s.scale_divisor ≤ (get_scale 1500).scale_divisor) ∧
     ((∀ s ∈ scales, ¬ 1 ≤ |(1500 : ℚ) / s.scale_divisor|) → get_scale 1500 = scale_nano) ∧
     get_scale 0 = scale_nano ∧
     get_scale (123 / 1000000000) = scale_nano ∧
     get_scale 1500 = scale_kilo ∧
     get_scale 1500000000000 = scale_tera) :=
  ⟨by norm_num, C6_get_scale 1500 (by norm_num)⟩

/-- Running `benchSort` meets the `qsort` contract. -/
theorem benchSort_qsort_post (l : List time_info) : qsort_post l (benchSort l) :=
  ⟨List.perm_insertionSort time_ge l, List.sorted_insertionSort time_ge l⟩

/-- Two results allowed by the `qsort` contract on the same input agree as
soon as the recorded durations are pairwise distinct: a comparator-consistent
order is then unique. -/
theorem qsort_post_unique (l l1 l2 : List time_info)
    (h1 : qsort_post l l1) (h2 : qsort_post l l2)
    (hd : (l.map time_info.time_us).Nodup) : l1 = l2 := by
  obtain ⟨hp1, hs1⟩ := h1
  obtain ⟨hp2, hs2⟩ := h2
  have hperm : l1.Perm l2 := hp1.trans hp2.symm
  have hd1 : (l1.map time_info.time_us).Nodup :=
    ((hp1.map time_info.time_us).nodup_iff).mpr hd
  have hd2 : (l2.map time_info.time_us).Nodup :=
    ((hp2.map time_info.time_us).nodup_iff).mpr hd
  have hne1 : l1.Pairwise (fun a b => a.time_us ≠ b.time_us) :=
    (List.pairwise_map.mp hd1)
  have hne2 : l2.Pairwise (fun a b => a.time_us ≠ b.time_us) :=
    (List.pairwise_map.mp hd2)
  have hstrict1 : l1.Pairwise (fun a b => b.time_us < a.time_us) :=
    (hs1.and hne1).imp fun h => lt_of_le_of_ne h.1 (Ne.symm h.2)
  have hstrict2 : l2.Pairwise (fun a b => b.time_us < a.time_us) :=
    (hs2.and hne2).imp fun h => lt_of_le_of_ne h.1 (Ne.symm h.2)
  haveI : IsAntisymm time_info (fun a b => b.time_us < a.time_us) :=
    ⟨fun a b hab hba => absurd hab (not_lt.mpr hba.le)⟩
  exact List.eq_of_perm_of_sorted hperm hstrict1 hstrict2

/-- C2 counterexample: on the store `{a:1000, b:3000, c:2000}` the ranked
renderer fills `(int)(BAR_LENGTH * percentage / 100.0)` glyphs where
`percentage` is the share of the **total**, so the maximal entry `b` (50% of
the total) gets 10 filled positions out of `BAR_LENGTH = 20` — its bar is not
full, contrary to the claim. -/
theorem C2_counterexample :
    print_bench_ranked_out
        { total_time := 6000, start_time := 0,
          timings := [{ time_us := 1000, function_name := ['a'] },
                      { time_us := 3000, function_name := ['b'] },
                      { time_us := 2000, function_name := ['c'] }] } =
      some [{ function_name := ['b'], percentage := 50, filled_length := 10 },
            { function_name := ['c'], percentage := 100 / 3, filled_length := 6 },
            { function_name := ['a'], percentage := 50 / 3, filled_length := 3 }] ∧
    (10 : ℤ) ≠ BAR_LENGTH := by
  constructor
  · norm_num [print_bench_ranked_out, ranked_rows, ranked_row_of, cTrunc, benchSort,
      List.insertionSort, List.orderedInsert, time_ge, BAR_LENGTH]
  · decide

/-- C2 amended: on the store `{a:1000, b:3000, c:2000}` the ranked output
orders the rows `b, c, a` (and this order is forced for **every** sort
satisfying the `qsort` contract, the durations being pairwise distinct); the
exact percentages sum to 100; and the bar of the maximal entry `b` has 10 of
the `BAR_LENGTH = 20` glyph positions filled (half the bar), not all of
them. -/
theorem C2_ranked_amended :
    ((benchSort [{ time_us := 1000, function_name := ['a'] },
                 { time_us := 3000, function_name := ['b'] },
                 { time_us := 2000, function_name := ['c'] }]).map time_info.function_name =
      [['b'], ['c'], ['a']]) ∧
    (∀ l', qsort_post [{ time_us := 1000, function_name := ['a'] },
                       { time_us := 3000, function_name := ['b'] },
                       { time_us := 2000, function_name := ['c'] }] l' →
      l'.map time_info.function_name = [['b'], ['c'], ['a']]) ∧
    (((ranked_rows (benchSort [{ time_us := 1000, function_name := ['a'] },
                               { time_us := 3000, function_name := ['b'] },
                               { time_us := 2000, function_name := ['c'] }]) 6000).map
        ranked_row.percentage).sum = 100) ∧
    ((ranked_rows (benchSort [{ time_us := 1000, function_name := ['a'] },
                              { time_us := 3000, function_name := ['b'] },
                              { time_us := 2000, function_name := ['c'] }]) 6000).map
        ranked_row.filled_length = [10, 6, 3]) ∧
    (10 : ℤ) = BAR_LENGTH / 2 := by
  refine ⟨by decide, ?_, ?_, ?_, by decide⟩
  · intro l' hl'
    have huniq : l' = benchSort [{ time_us := 1000, function_name := ['a'] },
                                 { time_us := 3000, function_name := ['b'] },
                                 { time_us := 2000, function_name := ['c'] }] := by
      apply qsort_post_unique _ _ _ hl' (benchSort_qsort_post _)
      decide
    rw [huniq]
    decide
  · norm_num [ranked_rows, ranked_row_of, cTrunc, benchSort,
      List.insertionSort, List.orderedInsert, time_ge, BAR_LENGTH]
  · norm_num [ranked_rows, ranked_row_of, cTrunc, benchSort,
      List.insertionSort, List.orderedInsert, time_ge, BAR_LENGTH]

/-- C8 counterexample: with two entries of equal duration the `qsort`
contract (`qsort_post`, the only ordering guarantee the C standard gives for
bench.h:390) admits both relative orders, so the first and second
`print_bench_ranked` calls may legitimately produce different row lists: both
lists below are contract-conforming sort results of the same store, yet they
render differently.  Identical output on every store, equal durations
included, is therefore not guaranteed by the code. -/
theorem C8_counterexample :
    qsort_post [{ time_us := 5, function_name := ['a'] },
                { time_us := 5, function_name := ['b'] }]
      [{ time_us := 5, function_name := ['a'] },
       { time_us := 5, function_name := ['b'] }] ∧
    qsort_post [{ time_us := 5, function_name := ['a'] },
                { time_us := 5, function_name := ['b'] }]
      [{ time_us := 5, function_name := ['b'] },
       { time_us := 5, function_name := ['a'] }] ∧
    (ranked_rows [{ time_us := 5, function_name := ['a'] },
                  { time_us := 5, function_name := ['b'] }] 10).map
        ranked_row.function_name ≠
      (ranked_rows [{ time_us := 5, function_name := ['b'] },
                    { time_us := 5, function_name := ['a'] }] 10).map
        ranked_row.function_name :=
  ⟨⟨by decide, by decide⟩, ⟨by decide, by decide⟩, by decide⟩

/-- C8 amended: when the recorded durations are pairwise distinct, any two
successive contract-conforming sorts agree — the second `print_bench_ranked`
call reorders nothing and renders exactly the same rows; in the
deterministic `benchSort` model the re-sort is the identity on every already
sorted list, so successive calls also agree there unconditionally. -/
theorem C8_ranked_idempotent (l l1 l2 : List time_info) (total : ℤ)
    (h1 : qsort_post l l1) (h2 : qsort_post l1 l2)
    (hd : (l.map time_info.time_us).Nodup) :
    l2 = l1 ∧
    ranked_rows l2 total = ranked_rows l1 total ∧
    benchSort (benchSort l) = benchSort l := by
  have hd1 : (l1.map time_info.time_us).Nodup :=
    ((h1.1.map time_info.time_us).nodup_iff).mpr hd
  have heq : l1 = l2 :=
    qsort_post_unique l1 l1 l2 ⟨List.Perm.refl l1, h1.2⟩ h2 hd1
  refine ⟨heq.symm, by rw [heq], ?_⟩
  exact (List.sorted_insertionSort time_ge l).insertionSort_eq

/-- Witness for C8 on the two-entry store `{x:3, y:7}`. -/
theorem C8_ranked_idempotent_witness :
    qsort_post [{ time_us := 3, function_name := ['x'] },
                { time_us := 7, function_name := ['y'] }]
      [{ time_us := 7, function_name := ['y'] },
       { time_us := 3, function_name := ['x'] }] ∧
    (([{ time_us := 3, function_name := ['x'] },
       { time_us := 7, function_name := ['y'] }].map time_info.time_us).Nodup) ∧
    (([{ time_us := 7, function_name := ['y'] },
       { time_us := 3, function_name := ['x'] }] : List time_info) =
       [{ time_us := 7, function_name := ['y'] },
        { time_us := 3, function_name := ['x'] }] ∧
     ranked_rows [{ time_us := 7, function_name := ['y'] },
                  { time_us := 3, function_name := ['x'] }] 10 =
       ranked_rows [{ time_us := 7, function_name := ['y'] },
                    { time_us := 3, function_name := ['x'] }] 10 ∧
     benchSort (benchSort [{ time_us := 3, function_name := ['x'] },
                           { time_us := 7, function_name := ['y'] }]) =
       benchSort [{ time_us := 3, function_name := ['x'] },
                  { time_us := 7, function_name := ['y'] }]) :=
  ⟨⟨by decide, by decide⟩, by decide,
   C8_ranked_idempotent
     ([{ time_us := 3, function_name := ['x'] },
       { time_us := 7, function_name := ['y'] }] : List time_info)
     ([{ time_us := 7, function_name := ['y'] },
       { time_us := 3, function_name := ['x'] }] : List time_info)
     ([{ time_us := 7, function_name := ['y'] },
       { time_us := 3, function_name := ['x'] }] : List time_info)
     10
     ⟨by decide, by decide⟩ ⟨by decide, by decide⟩ (by decide)⟩

/-- C1 counterexample: on the store holding the single entry `a:0` (so
`total_time = 0` with an entry present) `print_bench_json` evaluates
`(double)time_us * 100.0 / total_time` with a zero divisor (bench.h:426); the
model returns `none` for exactly that situation.  The percentage is therefore
not treated as `0`: the claimed guarded output (a `0.00` percentage line
between the sentinels) is not what the function prints. -/
theorem C1_counterexample :
    print_bench_json_out
        { total_time := 0, start_time := 0,
          timings := [{ time_us := 0, function_name := ['a'] }] } = none ∧
    print_bench_json_out
        { total_time := 0, start_time := 0,
          timings := [{ time_us := 0, function_name := ['a'] }] } ≠
      some [json_open,
            "  \"a\": \x7b\"time_μs\": 0, \"percentage\": 0.00\x7d",
            json_close] :=
  ⟨by decide, by decide⟩

/-- C1 amended: with zero entries `print_bench_json` prints just the two
sentinel lines and performs no division; with entries present and
`total_time = 0` it does **not** treat the percentages as `0` — it performs
the unguarded floating-point division by zero (modelled as `none`: the
printed percentages are IEEE non-finite values). -/
theorem C1_json_zero_total (b : benchmark_t) :
    (b.timings = [] → print_bench_json_out b = some [json_open, json_close]) ∧
    (b.timings ≠ [] → b.total_time = 0 → print_bench_json_out b = none) := by
  constructor
  · intro hnil
    simp [print_bench_json_out, hnil, json_lines]
  · intro hne hz
    have hlen : 0 < b.timings.length := List.length_pos.mpr hne
    simp [print_bench_json_out, hlen, hz]

/-- Witness for C1 on the empty store and on a one-entry, zero-total store. -/
theorem C1_json_zero_total_witness :
    print_bench_json_out benchmark_init = some [json_open, json_close] ∧
    print_bench_json_out
        { total_time := 0, start_time := 0,
          timings := [{ time_us := 0, function_name := ['a'] }] } = none :=
  ⟨(C1_json_zero_total benchmark_init).1 rfl,
   (C1_json_zero_total _).2 (by decide) rfl⟩

/-- C3 counterexample: the body line printed for the entry `a:1000` in a
store with `total_time = 1000` carries the key `"time_μs"` — the format
string at bench.h:427 spells it with a Greek mu — and not the key
`"time_us"` stated by the claim. -/
theorem C3_counterexample :
    json_line { time_us := 1000, function_name := ['a'] } 1000 false =
      "  \"a\": \x7b\"time_μs\": 1000, \"percentage\": 100.00\x7d" ∧
    json_line { time_us := 1000, function_name := ['a'] } 1000 false ≠
      "  \"a\": \x7b\"time_us\": 1000, \"percentage\": 100.00\x7d" ∧
    print_bench_json_out
        { total_time := 1000, start_time := 0,
          timings := [{ time_us := 1000, function_name := ['a'] }] } =
      some [json_open,
            "  \"a\": \x7b\"time_μs\": 1000, \"percentage\": 100.00\x7d",
            json_close] := by
  refine ⟨?_, ?_, ?_⟩
  · norm_num [json_line, fmt2]
    decide
  · norm_num [json_line, fmt2]
    decide
  · norm_num [print_bench_json_out, json_lines, json_line, fmt2]
    decide

/-- The JSON body has exactly one line per stored entry. -/
theorem json_lines_length (l : List time_info) (total : ℤ) :
    (json_lines l total).length = l.length := by
  induction l with
  | nil => rfl
  | cons e rest ih =>
    cases rest with
    | nil => rfl
    | cons e' rest' =>
      simp only [json_lines, List.length_cons] at ih ⊢
      rw [ih]

/-- The `i`-th JSON body line renders the `i`-th entry, comma-terminated
exactly when it is not the last one. -/
theorem json_lines_getElem (l : List time_info) (total : ℤ) (i : Nat)
    (hi : i < l.length) :
    (json_lines l total)[i]? =
      some (json_line l[i] total (decide (i + 1 < l.length))) := by
  induction l generalizing i with
  | nil => exact absurd hi (by simp)
  | cons e rest ih =>
    cases rest with
    | nil =>
      have hz : i = 0 := by
        simp only [List.length_cons, List.length_nil] at hi
        omega
      subst hz
      rw [decide_eq_false (by simp : ¬((0 : Nat) + 1 < (e :: ([] : List time_info)).length))]
      simp [json_lines]
    | cons e' rest' =>
      cases i with
      | zero =>
        rw [decide_eq_true (by simp : (0 : Nat) + 1 < (e :: e' :: rest').length)]
        simp [json_lines]
      | succ j =>
        have hj : j < (e' :: rest').length := by
          simp only [List.length_cons] at hi ⊢
          omega
        have hstep : (json_lines (e :: e' :: rest') total)[j + 1]? =
            (json_lines (e' :: rest') total)[j]? := by
          simp [json_lines]
        rw [hstep, ih j hj]
        congr 1
        have hget : (e :: e' :: rest')[j + 1] = (e' :: rest')[j] := by
          simp
        rw [hget]
        congr 1
        rw [decide_eq_decide]
        simp only [List.length_cons]
        omega

/-- C3 amended: for every store with a nonzero total, `print_bench_json`
emits the opening sentinel `>>>{`, one body line per entry in storage order —
`  "label": \x7b"time_μs": N, "percentage": P.PP\x7d` with `N` the entry's
integer microsecond duration and the key spelled `time_μs` (Greek mu, as in
the format string at bench.h:427) — each line comma-terminated except the
last, then the closing sentinel `}<<<`.  (With entries and a zero total the
division is unguarded, see C1.) -/
theorem C3_json_shape (b : benchmark_t) (h : b.total_time ≠ 0) (i : Nat)
    (hi : i < b.timings.length) :
    print_bench_json_out b =
      some (json_open :: json_lines b.timings b.total_time ++ [json_close]) ∧
    (json_lines b.timings b.total_time).length = b.timings.length ∧
    (json_lines b.timings b.total_time)[i]? =
      some (json_line b.timings[i] b.total_time
        (decide (i + 1 < b.timings.length))) := by
  refine ⟨?_, json_lines_length _ _, json_lines_getElem _ _ i hi⟩
  simp [print_bench_json_out, h]

/-- Witness for C3 on the one-entry store `a:1000` with total `1000`. -/
theorem C3_json_shape_witness :
    (benchmark_t.mk 1000 0 [{ time_us := 1000, function_name := ['a'] }]).total_time ≠ 0 ∧
    0 < (benchmark_t.mk 1000 0
      [{ time_us := 1000, function_name := ['a'] }]).timings.length ∧
    (print_bench_json_out (benchmark_t.mk 1000 0
        [{ time_us := 1000, function_name := ['a'] }]) =
      some (json_open ::
        json_lines (benchmark_t.mk 1000 0
          [{ time_us := 1000, function_name := ['a'] }]).timings 1000 ++ [json_close]) ∧
     (json_lines (benchmark_t.mk 1000 0
        [{ time_us := 1000, function_name := ['a'] }]).timings 1000).length =
       (benchmark_t.mk 1000 0
         [{ time_us := 1000, function_name := ['a'] }]).timings.length ∧
     (json_lines (benchmark_t.mk 1000 0
        [{ time_us := 1000, function_name := ['a'] }]).timings 1000)[0]? =
       some (json_line (benchmark_t.mk 1000 0
           [{ time_us := 1000, function_name := ['a'] }]).timings[0] 1000
         (decide (0 + 1 < (benchmark_t.mk 1000 0
           [{ time_us := 1000, function_name := ['a'] }]).timings.length)))) :=
  ⟨by decide, by decide, C3_json_shape _ (by decide) 0 (by decide)⟩

/-- C7: `FFT_bench` returns immediately with no output whenever
`mu_s ≤ 0`; otherwise the throughput it prints is the closed-form
`5 · N · log2 N` floating-point operations divided by the duration in
seconds, and for `mu_s = 2341`, `N = 1024` that value is
`5 * 1024 * 10 / (2341e-6)` (so the mega-scaled MFLOP/s figure is that
divided by `1e6`), with `log2 1024 = 10` coming from the formula, not from a
constant. -/
theorem C7_fft_throughput (mu_s : ℝ) (N : ℕ) (h : mu_s ≤ 0) :
    FFT_bench mu_s N = none ∧
    Real.logb 2 1024 = 10 ∧
    FFT_mflops 2341 1024 = 5 * 1024 * Real.logb 2 1024 / (2341 * (1 / 1000000)) ∧
    FFT_bench 2341 1024 =
      some (2341 * (1 / 1000000), 5 * 1024 * 10 / (2341 * (1 / 1000000))) ∧
    5 * 1024 * 10 / ((2341 : ℝ) * (1 / 1000000)) / 1000000 =
      5 * 1024 * Real.logb 2 1024 / (2341 / 1000000) / 1000000 := by
  have hlog : Real.logb 2 (1024 : ℝ) = 10 := by
    have h1024 : (1024 : ℝ) = 2 ^ (10 : ℕ) := by norm_num
    rw [h1024, Real.logb_pow, Real.logb_self_eq_one (by norm_num)]
    norm_num
  refine ⟨?_, hlog, ?_, ?_, ?_⟩
  · simp [FFT_bench, h]
  · norm_num [FFT_mflops]
  · rw [FFT_bench, if_neg (by norm_num : ¬(2341 : ℝ) ≤ 0)]
    norm_num [FFT_mflops, hlog]
  · rw [hlog]
    norm_num

/-- Witness for C7 at `mu_s = 0` (the boundary of the guard). -/
theorem C7_fft_throughput_witness :
    (0 : ℝ) ≤ 0 ∧
    (FFT_bench 0 512 = none ∧
     Real.logb 2 1024 = 10 ∧
     FFT_mflops 2341 1024 = 5 * 1024 * Real.logb 2 1024 / (2341 * (1 / 1000000)) ∧
     FFT_bench 2341 1024 =
       some (2341 * (1 / 1000000), 5 * 1024 * 10 / (2341 * (1 / 1000000))) ∧
     5 * 1024 * 10 / ((2341 : ℝ) * (1 / 1000000)) / 1000000 =
       5 * 1024 * Real.logb 2 1024 / (2341 / 1000000) / 1000000) :=
  ⟨le_refl 0, C7_fft_throughput 0 512 (le_refl 0)⟩

/-- Witness for C2: the descending order `b, c, a` for one concrete
contract-conforming sort result. -/
theorem C2_ranked_amended_witness :
    qsort_post [{ time_us := 1000, function_name := ['a'] },
                { time_us := 3000, function_name := ['b'] },
                { time_us := 2000, function_name := ['c'] }]
      [{ time_us := 3000, function_name := ['b'] },
       { time_us := 2000, function_name := ['c'] },
       { time_us := 1000, function_name := ['a'] }] ∧
    ([{ time_us := 3000, function_name := ['b'] },
      { time_us := 2000, function_name := ['c'] },
      { time_us := 1000, function_name := ['a'] }] : List time_info).map
        time_info.function_name = [['b'], ['c'], ['a']] :=
  ⟨⟨by decide, by decide⟩,
   C2_ranked_amended.2.1
     ([{ time_us := 3000, function_name := ['b'] },
       { time_us := 2000, function_name := ['c'] },
       { time_us := 1000, function_name := ['a'] }] : List time_info)
     ⟨by decide, by decide⟩⟩
